import Mathlib

/-!
Verification of the Quantum-nqueens repository (4-Queens quantum circuits).

The development shallow-embeds the two encodings of the repository:

* `DirectCSP` — the direct encoding (`direct_csp/`): per-row one-hot (W) states
  on 16 board qubits, 3 column-check ancillas (`columns.py`), 6 diagonal-check
  ancillas (`diagonals.py`), a 25-bit measurement layout (`circuit.py`) and the
  classical decoder (`analysis.py`).
* `SatGrover` — the SAT encoding (`sat-grover/circuit.py`): the classical
  validator, the boolean N-Queens formula fed to the phase oracle, the Grover
  iteration-count formula and the circuit builder.

Quantum gates are embedded only as far as the claims need them: the claims
about the ancilla networks quantify over classical (computational-basis) board
states, on which X/CCX act as boolean updates and the H–CZ–H column sandwich
acts inside a single-qubit two-dimensional subspace, which we track exactly
with integer amplitude pairs scaled by √2 per Hadamard.
-/

namespace DirectCSP

/-- A classical one-hot-per-row board state of the 4×4 board: `cols r` is the
column of the unique queen of row `r`.  Per `w_prep.py`, board qubit
`4*r + c` is `1` iff the queen of row `r` sits in column `c`. -/
def boardBit (cols : Fin 4 → Fin 4) (r c : Fin 4) : Bool :=
  decide (cols r = c)

/-- Board qubit at flat index `idx = 4*r + c` (the indexing used by
`diagonals.py`: `index = row * 4 + col`), for `idx < 16`. -/
def boardBitAt (cols : Fin 4 → Fin 4) (idx : ℕ) : Bool :=
  decide ((cols ⟨idx / 4 % 4, Nat.mod_lt _ (by norm_num)⟩ : ℕ) = idx % 4)

/-- Number of queens a one-hot board places in column `c`. -/
def countColumn (cols : Fin 4 → Fin 4) (c : Fin 4) : ℕ :=
  (List.finRange 4).countP (fun r => boardBit cols r c)

/-! ### Column check (`columns.py`, `add_column_checks`)

For a classical board the ancilla of column `j` stays in the two-dimensional
space spanned by |0⟩ and |1⟩: the board qubits act only as classical controls.
We track its amplitude pair `(a0, a1)` over ℤ, scaled by one factor of √2 per
Hadamard application (so after the two Hadamards the physical state is half of
the tracked pair; the scaling never changes which component is zero). -/

/-- √2-scaled Hadamard on an amplitude pair. -/
def hGate (a : ℤ × ℤ) : ℤ × ℤ := (a.1 + a.2, a.1 - a.2)

/-- CZ whose control is a classical board bit `b`: applies Z to the ancilla
pair iff `b` is set. -/
def czClassical (b : Bool) (a : ℤ × ℤ) : ℤ × ℤ :=
  if b then (a.1, -a.2) else a

/-- The ancilla state of column `j` produced by `add_column_checks`
(columns.py lines 41–53) on a classical board: Hadamard, then one CZ from each
board qubit of column `j` (rows in order `0,1,2,3`), then Hadamard, starting
from |0⟩. -/
def column_check_state (cols : Fin 4 → Fin 4) (j : Fin 4) : ℤ × ℤ :=
  hGate ((List.finRange 4).foldl (fun a r => czClassical (boardBit cols r j) a) (hGate (1, 0)))

/-- Measured value of a (scaled) ancilla amplitude pair that is proportional to
a basis state: `some false` for |0⟩, `some true` for |1⟩, `none` otherwise. -/
def ancillaValue (a : ℤ × ℤ) : Option Bool :=
  if a.2 = 0 ∧ a.1 ≠ 0 then some false
  else if a.1 = 0 ∧ a.2 ≠ 0 then some true
  else none

/-! ### Row preparation (`w_prep.py`, `prepare_w_row`) -/

/-- The 16-entry state vector supplied by `prepare_w_row` to
`qc.initialize` (w_prep.py lines 26–32): all zeros, then amplitude `0.5`
written at indices 1, 2, 4 and 8, in that order. -/
def prepare_w_row_state : Fin 16 → ℚ := fun i =>
  if (i : ℕ) = 1 then 1/2
  else if (i : ℕ) = 2 then 1/2
  else if (i : ℕ) = 4 then 1/2
  else if (i : ℕ) = 8 then 1/2
  else 0

/-- Hamming weight of the 4 low bits of `n` (the one-hot test on a 4-qubit
basis index). -/
def weight4 (n : ℕ) : ℕ :=
  n % 2 + n / 2 % 2 + n / 4 % 2 + n / 8 % 2

/-! ### Diagonal pairs and diagonal check (`diagonals.py`) -/

/-- `diagonal_pairs_for_4x4` (diagonals.py lines 13–23), loop for loop:
for `r1` in 0..3, `c1` in 0..3, `r2` in r1+1..3, `c2` in 0..3, if
`|r1 - r2| = |c1 - c2|` append `(r1*4 + c1, r2*4 + c2)`. -/
def diagonal_pairs_for_4x4 : List (ℕ × ℕ) :=
  (List.range 4).flatMap fun r1 =>
    (List.range 4).flatMap fun c1 =>
      ((List.range 4).filter (fun r2 => r1 < r2)).flatMap fun r2 =>
        (List.range 4).filterMap fun c2 =>
          let i : ℕ := r1 * 4 + c1
          let j : ℕ := r2 * 4 + c2
          if ((r1 : ℤ) - (r2 : ℤ)).natAbs = ((c1 : ℤ) - (c2 : ℤ)).natAbs then
            some (i, j)
          else none

/-- The module-level table `DIAG_PAIRS` (diagonals.py line 26). -/
def DIAG_PAIRS : List (ℕ × ℕ) := diagonal_pairs_for_4x4

/-- The specification predicate of claim C10: `p` is a pair
`(4*r1 + c1, 4*r2 + c2)` of diagonally aligned cells with `r2 > r1`. -/
def IsDiagPair (p : ℕ × ℕ) : Prop :=
  ∃ r1 c1 r2 c2 : Fin 4, (r1 : ℕ) < r2 ∧
    ((r1 : ℤ) - r2).natAbs = ((c1 : ℤ) - c2).natAbs ∧
    p = (4 * (r1 : ℕ) + c1, 4 * (r2 : ℕ) + c2)

instance : DecidablePred IsDiagPair := fun _ => by
  unfold IsDiagPair; infer_instance

/-- `row_pairs` as built in `add_diagonal_checks` (diagonals.py lines 62–65):
all `(r1, r2)` with `r2 > r1`, outer loop `r1`, inner loop `r2`. -/
def row_pairs : List (ℕ × ℕ) :=
  (List.range 4).flatMap fun r1 =>
    ((List.range 4).filter (fun r2 => r1 < r2)).map fun r2 => (r1, r2)

/-- The diagonal-ancilla index assigned to a row-pair key by
`rowpair_to_anc` (diagonals.py lines 70–72): position in `row_pairs`
(ancillas are listed in the same order). -/
def rowpair_to_anc (key : ℕ × ℕ) : ℕ :=
  row_pairs.indexOf key

/-- The final classical values of the 6 diagonal ancillas produced by
`add_diagonal_checks` (diagonals.py lines 74–85) on a classical board:
every ancilla is set to 1 by an X gate, then for each `(i, j)` of
`DIAG_PAIRS`, in order, a Toffoli controlled by board qubits `i` and `j`
flips the ancilla of the pair's row pair; on classical controls the Toffoli
flips the target iff both controls are 1. -/
def add_diagonal_checks (cols : Fin 4 → Fin 4) : List Bool :=
  DIAG_PAIRS.foldl
    (fun anc p =>
      let r1 := p.1 / 4
      let r2 := p.2 / 4
      let a := rowpair_to_anc (min r1 r2, max r1 r2)
      if boardBitAt cols p.1 && boardBitAt cols p.2 then
        anc.set a (!(anc.getD a true))
      else anc)
    (List.replicate 6 true)

/-- Number of Toffolis of the diagonal network that fire (both controls 1) on
ancilla `k` for a given classical board. -/
def firingCount (cols : Fin 4 → Fin 4) (k : ℕ) : ℕ :=
  DIAG_PAIRS.countP fun p =>
    rowpair_to_anc (min (p.1 / 4) (p.2 / 4), max (p.1 / 4) (p.2 / 4)) = k
      && boardBitAt cols p.1 && boardBitAt cols p.2

/-- Column of the queen of row `r`, as a natural number (rows beyond 3 return
0; only `r < 4` is used). -/
def colsAt (cols : Fin 4 → Fin 4) (r : ℕ) : ℕ :=
  if h : r < 4 then cols ⟨r, h⟩ else 0

/-- The queens of the row pair `(r1, r2)` share a diagonal:
`|r1 - r2| = |col r1 - col r2|`. -/
def SharesDiagonal (cols : Fin 4 → Fin 4) (r1 r2 : ℕ) : Prop :=
  ((r1 : ℤ) - r2).natAbs = ((colsAt cols r1 : ℤ) - colsAt cols r2).natAbs

instance (cols : Fin 4 → Fin 4) (r1 r2 : ℕ) : Decidable (SharesDiagonal cols r1 r2) := by
  unfold SharesDiagonal; infer_instance

/-- The board used to refute claim C1: rows 0, 1 and 2 put their queen in
column 0, row 3 in column 1, so column 0 holds three queens. -/
def threeQueensBoard : Fin 4 → Fin 4 := ![0, 0, 0, 1]

/-! ### Measurement layout (`circuit.py`) and decoder (`analysis.py`) -/

/-- Global indices of the 16 board qubits (circuit.py line 42). -/
def board_qubits : List ℕ := List.range 16

/-- Global indices of the 3 column ancillas (circuit.py line 43). -/
def col_ancillas : List ℕ := (List.range 3).map (fun j => 16 + j)

/-- Global indices of the 6 diagonal ancillas (circuit.py lines 44–45). -/
def diag_ancillas : List ℕ := (List.range 6).map (fun k => 19 + k)

/-- The measurement map of `build_direct_csp_circuit` (circuit.py line 57):
`qc.measure(qr_board[:] + qr_col[:] + qr_diag[:], cr[:])` measures the p-th
qubit of the concatenated list into classical bit p. -/
def measure_order : List ℕ := board_qubits ++ col_ancillas ++ diag_ancillas

/-- The reported 25-character bitstring for measured classical bits `c`, under
the convention (qiskit's, restated in analysis.py lines 21–25) that the
leftmost character is the highest classical index: position `p` holds
classical bit `24 - p`. -/
def bitstringOf (c : ℕ → Bool) : List Bool :=
  (List.range 25).map (fun p => c (24 - p))

/-- The decode failure of `split_bitstring` (analysis.py lines 34–38 and
44–47): a length mismatch against the expected layout, raised in python as a
`ValueError`. -/
inductive DecodeError
  | lengthMismatch (expected got : ℕ)
deriving DecidableEq

/-- `split_bitstring` (analysis.py lines 10–49): checks the total length,
then slices the first `num_diag` characters as `diag_bits`, the next
`num_cols` as `col_bits` and the remaining `board_size` as `board_bits`,
returning `(board_bits, col_bits, diag_bits)`. -/
def split_bitstring (bits : List Bool) (board_size : ℕ := 16) (num_cols : ℕ := 3)
    (num_diag : ℕ := 6) : Except DecodeError (List Bool × List Bool × List Bool) :=
  if bits.length ≠ board_size + num_cols + num_diag then
    .error (.lengthMismatch (board_size + num_cols + num_diag) bits.length)
  else
    let diag_bits := bits.take num_diag
    let col_bits := (bits.drop num_diag).take num_cols
    let board_bits := bits.drop (num_diag + num_cols)
    if board_bits.length ≠ board_size then
      .error (.lengthMismatch board_size board_bits.length)
    else
      .ok (board_bits, col_bits, diag_bits)

/-- The result-filtering loop of `analyze_direct_csp` (analysis.py lines
109–117), on a histogram given as a list of (bitstring, count) entries:
each bitstring is decoded with `split_bitstring` and the entries whose
column and diagonal ancilla bits are all 1 are kept.  Nothing in
`analyze_direct_csp` catches `split_bitstring`'s error, so the embedded loop
propagates the first decode error and aborts. -/
def analyze_valid_counts :
    List (List Bool × ℕ) → Except DecodeError (List (List Bool × ℕ))
  | [] => .ok []
  | (bs, cnt) :: rest =>
    match split_bitstring bs with
    | .error e => .error e
    | .ok (_, col_bits, diag_bits) =>
      match analyze_valid_counts rest with
      | .error e => .error e
      | .ok tail =>
        if col_bits.all (fun b => b) && diag_bits.all (fun b => b) then
          .ok ((bs, cnt) :: tail)
        else .ok tail

/-- The classical register contents used to refute claim C7: board qubit 0
was measured as 1 (classical bit 0), every other classical bit is 0. -/
def onlyQubit0 : ℕ → Bool := fun q => decide (q = 0)

/-- `DIAG_PAIRS` evaluates to this 28-element literal list. -/
theorem DIAG_PAIRS_eq :
    DIAG_PAIRS =
      [(0, 5), (0, 10), (0, 15), (1, 4), (1, 6), (1, 11), (2, 5), (2, 7), (2, 8),
       (3, 6), (3, 9), (3, 12), (4, 9), (4, 14), (5, 8), (5, 10), (5, 15), (6, 9),
       (6, 11), (6, 12), (7, 10), (7, 13), (8, 13), (9, 12), (9, 14), (10, 13),
       (10, 15), (11, 14)] := by rfl

end DirectCSP

namespace DirectCSP

/-- Claim C7, counterexample: with only classical bit 0 set (board qubit 0
measured as 1), decoding the reported bitstring gives `board_bits[0] = 0`,
which differs from the measured value of board qubit 0: `split_bitstring`'s
lists are not indexed in qubit order. -/
theorem split_bitstring_identity_layout_refuted :
    (split_bitstring (bitstringOf onlyQubit0)).toOption.map
        (fun t => t.1.getD 0 false) ≠ some (onlyQubit0 0) := by decide

/-- Claim C7, amended: the circuit measures board qubit `i` into classical bit
`i`, column ancilla `j` into classical bit `16 + j` and diagonal ancilla `k`
into classical bit `19 + k` (the measurement list is the identity on 0..24),
and for every 25-character measured bitstring (leftmost character = highest
classical index) `split_bitstring` returns the three groups each in
DESCENDING index order: `board_bits[i]` is the measured value of board qubit
`15 - i`, `col_bits[j]` of column ancilla `2 - j`, and `diag_bits[k]` of
diagonal ancilla `5 - k`. -/
theorem split_bitstring_layout :
    measure_order = List.range 25 ∧
    ∀ c : ℕ → Bool,
      split_bitstring (bitstringOf c) =
        Except.ok
          ([c 15, c 14, c 13, c 12, c 11, c 10, c 9, c 8,
            c 7, c 6, c 5, c 4, c 3, c 2, c 1, c 0],
           [c 18, c 17, c 16],
           [c 24, c 23, c 22, c 21, c 20, c 19]) :=
  ⟨rfl, fun _ => rfl⟩

/-- Claim C8: the histogram used to exhibit the batch-abort behaviour — one
well-formed all-ones 25-bit entry (which the filter keeps) followed by a
malformed 24-bit entry. -/
def mixedHistogram : List (List Bool × ℕ) :=
  [(List.replicate 25 true, 3), (List.replicate 24 true, 1)]

/-- Claim C8, behaviour at the failing input: on a histogram with one valid
25-bit entry and one 24-bit entry, the filtering loop of
`analyze_direct_csp` propagates `split_bitstring`'s length-mismatch error
and returns no partial results, although the valid entry alone would have
been decoded and kept. -/
theorem analyze_aborts_on_malformed :
    analyze_valid_counts mixedHistogram =
      Except.error (DecodeError.lengthMismatch 25 24) ∧
    analyze_valid_counts [(List.replicate 25 true, 3)] =
      Except.ok [(List.replicate 25 true, 3)] := ⟨rfl, rfl⟩

/-- Claim C1, counterexample: on the classical one-hot board that places the
queens of rows 0, 1, 2 in column 0 and the queen of row 3 in column 1,
column 0 holds three queens (not exactly one), yet after the H–CZ–CZ–CZ–CZ–H
column check its ancilla reads logical 1 — contradicting "ancilla is 1 iff
exactly one queen occupies the column, 0 otherwise (0 or ≥2 queens)". -/
theorem column_check_exactly_one_refuted :
    countColumn threeQueensBoard 0 = 3 ∧
      ancillaValue (column_check_state threeQueensBoard 0) = some true ∧
      ¬ (ancillaValue (column_check_state threeQueensBoard 0) = some true ↔
          countColumn threeQueensBoard 0 = 1) := by decide

set_option maxRecDepth 100000 in
set_option maxHeartbeats 2000000 in
/-- Claim C1, amended: for every board prepared as a classical one-hot-per-row
eigenstate on the 16 board qubits and every checked column `j ∈ {0, 1, 2}`,
the column check of `add_column_checks` leaves the ancilla of column `j`
deterministically in logical 1 iff the number of queens in column `j` is odd
(1 or 3), and in logical 0 iff that number is even (0, 2 or 4): the
H–CZ…CZ–H sandwich computes the parity of the column's occupancy, not the
predicate "exactly one". -/
theorem column_check_parity :
    ∀ cols : Fin 4 → Fin 4, ∀ j : Fin 3,
      ancillaValue (column_check_state cols j.castSucc) =
        some (decide (countColumn cols j.castSucc % 2 = 1)) := by decide

set_option maxRecDepth 100000 in
set_option maxHeartbeats 4000000 in
/-- Claim C5: for every classical one-hot-per-row board, after
`add_diagonal_checks` (X on each of the 6 row-pair ancillas, then one Toffoli
per diagonally aligned cell pair) the ancilla of row pair `k` ends in 0 iff
the two queens of that row pair sit on a shared diagonal
(`|Δrow| = |Δcol|`), and in 1 otherwise; moreover at most one Toffoli fires
per row pair, so no unintended double-flip occurs. -/
theorem diagonal_check_correct :
    ∀ cols : Fin 4 → Fin 4, ∀ k : Fin 6,
      (((add_diagonal_checks cols).getD k true = false) ↔
        SharesDiagonal cols (row_pairs.getD k (0, 0)).1 (row_pairs.getD k (0, 0)).2)
      ∧ firingCount cols k ≤ 1 := by decide

/-- Claim C6: the 16-entry vector supplied by `prepare_w_row` has amplitude
`1/2` at exactly the four basis indices of Hamming weight 1 (indices 1, 2, 4
and 8) and amplitude 0 at the other 12 indices, and its squared norm is
exactly 1. -/
theorem prepare_w_row_correct :
    (∀ i : Fin 16, prepare_w_row_state i = if weight4 (i : ℕ) = 1 then (1 : ℚ)/2 else 0)
    ∧ (∑ i : Fin 16, (prepare_w_row_state i) ^ 2 = 1) := by
  constructor
  · intro i
    fin_cases i <;> norm_num [prepare_w_row_state, weight4]
  · norm_num [Fin.sum_univ_succ, prepare_w_row_state]

set_option maxRecDepth 100000 in
set_option maxHeartbeats 2000000 in
/-- Claim C10: the module-level table `DIAG_PAIRS` contains exactly the pairs
`(4*r1 + c1, 4*r2 + c2)` of 4×4 cell indices with `r2 > r1` and
`|r1 - r2| = |c1 - c2|`: every entry satisfies that description and has its
second component strictly larger than its first, every such pair occurs in the
table, and no pair occurs twice. -/
theorem DIAG_PAIRS_characterization :
    DIAG_PAIRS.Nodup
    ∧ (DIAG_PAIRS.all fun p => decide (IsDiagPair p) && decide (p.1 < p.2)) = true
    ∧ (∀ r1 c1 r2 c2 : Fin 4,
        ((4 * (r1 : ℕ) + c1, 4 * (r2 : ℕ) + c2) ∈ DIAG_PAIRS ↔
          ((r1 : ℕ) < r2 ∧ ((r1 : ℤ) - r2).natAbs = ((c1 : ℤ) - c2).natAbs))) := by
  rw [DIAG_PAIRS_eq]
  refine ⟨by decide, by decide, by decide⟩

end DirectCSP

namespace SatGrover

/-! ### Classical validator (`sat-grover/circuit.py` lines 12–67) -/

/-- Bit `i` of the 8-bit assignment `x`, LSB first, as in
`bits = [(x >> i) & 1 for i in range(8)]` (circuit.py line 64). -/
def bit (x i : ℕ) : ℕ := x / 2 ^ i % 2

/-- `decode_assignment` (circuit.py lines 12–23): the four column values
`[c0, c1, c2, c3]`, two bits per row, `col = b0 + 2 * b1` with
`b0 = bits[2*row]` (LSB) and `b1 = bits[2*row + 1]` (MSB). -/
def decode_assignment (x : ℕ) : List ℕ :=
  (List.range 4).map fun row => bit x (2 * row) + 2 * bit x (2 * row + 1)

/-- `is_valid_assignment` (circuit.py lines 26–48): the four columns are
pairwise distinct (`len(set(cols)) == 4`) and no pair of rows attacks
diagonally (`|i - j| == |cols[i] - cols[j]|` for no `i < j`). -/
def is_valid_assignment (x : ℕ) : Bool :=
  let cols := decode_assignment x
  decide cols.Nodup &&
    ((List.range 4).all fun i =>
      ((List.range 4).filter (fun j => i < j)).all fun j =>
        !(((i : ℤ) - j).natAbs == ((cols.getD i 0 : ℤ) - cols.getD j 0).natAbs))

/-- `generate_valid_patterns` (circuit.py lines 51–67): the LSB-first bit
lists of all assignments `x ∈ 0..255` accepted by `is_valid_assignment`. -/
def generate_valid_patterns : List (List ℕ) :=
  (List.range 256).filterMap fun x =>
    if is_valid_assignment x then some ((List.range 8).map (bit x)) else none

/-! ### The boolean 4-Queens formula (`_nqueens4_boolean_expression`,
circuit.py lines 74–165)

The python function assembles a fully parenthesized expression string in
qiskit's syntax (`&`, `|`, `~`, `^` over `x0 … x7`); we build the identical
expression as a tree, clause for clause and in the same order. -/

/-- Expression tree over the 8 variables. -/
inductive BExpr
  | var (i : ℕ)
  | bnot (e : BExpr)
  | band (a b : BExpr)
  | bor (a b : BExpr)
  | bxor (a b : BExpr)
deriving DecidableEq

/-- Truth value of an expression under an assignment of the variables. -/
def BExpr.eval (f : ℕ → Bool) : BExpr → Bool
  | var i => f i
  | bnot e => !(e.eval f)
  | band a b => a.eval f && b.eval f
  | bor a b => a.eval f || b.eval f
  | bxor a b => xor (a.eval f) (b.eval f)

/-- `row_bits r` (circuit.py lines 96–104): the pair `(b0, b1)` of variables
of row `r`, `b0 = x(2r)` the LSB and `b1 = x(2r+1)` the MSB. -/
def row_bits (r : ℕ) : BExpr × BExpr := (BExpr.var (2 * r), BExpr.var (2 * r + 1))

/-- `col_eq_expr r col_val` (circuit.py lines 133–147): `(lit1 & lit0)`,
where `lit0`/`lit1` are `b0`/`b1` or their negations according to the bits of
`col_val`. -/
def col_eq_expr (r col_val : ℕ) : BExpr :=
  let b0 := (row_bits r).1
  let b1 := (row_bits r).2
  let v0 := col_val % 2
  let v1 := col_val / 2 % 2
  let lit0 := if v0 = 1 then b0 else BExpr.bnot b0
  let lit1 := if v1 = 1 then b1 else BExpr.bnot b1
  BExpr.band lit1 lit0

/-- `" | ".join` of a nonempty term list: left-nested OR (the python code
never joins an empty list; the `[]` case is an unreachable placeholder). -/
def orJoin : List BExpr → BExpr
  | [] => BExpr.var 0
  | e :: es => es.foldl BExpr.bor e

/-- `" & ".join` of a nonempty clause list: left-nested AND. -/
def andJoin : List BExpr → BExpr
  | [] => BExpr.var 0
  | e :: es => es.foldl BExpr.band e

/-- The column clauses (circuit.py lines 113–118): for each row pair
`r1 < r2`, `((b1_r1 ^ b1_r2) | (b0_r1 ^ b0_r2))`. -/
def column_clauses : List BExpr :=
  (List.range 4).flatMap fun r1 =>
    ((List.range 4).filter (fun r2 => r1 < r2)).map fun r2 =>
      BExpr.bor (BExpr.bxor (row_bits r1).2 (row_bits r2).2)
                (BExpr.bxor (row_bits r1).1 (row_bits r2).1)

/-- The diagonal clauses (circuit.py lines 149–160): for each row pair
`r1 < r2`, the negation of the OR of all "bad" column combinations
`(col(r1) = c1) & (col(r2) = c2)` with `|r1 - r2| = |c1 - c2|`. -/
def diagonal_clauses : List BExpr :=
  (List.range 4).flatMap fun r1 =>
    ((List.range 4).filter (fun r2 => r1 < r2)).filterMap fun r2 =>
      let bad_terms := (List.range 4).flatMap fun c1 =>
        (List.range 4).filterMap fun c2 =>
          let term := BExpr.band (col_eq_expr r1 c1) (col_eq_expr r2 c2)
          if ((r1 : ℤ) - (r2 : ℤ)).natAbs = ((c1 : ℤ) - (c2 : ℤ)).natAbs then
            some term
          else none
      if bad_terms.isEmpty then none
      else some (BExpr.bnot (orJoin bad_terms))

/-- `_nqueens4_boolean_expression` (circuit.py lines 74–165): the AND of all
column clauses followed by all diagonal clauses. -/
def nqueens4_boolean_expression : BExpr :=
  andJoin (column_clauses ++ diagonal_clauses)

/-- Modelled from the spec: qiskit's `PhaseOracle` — an external library
component whose implementation is not part of this repository — compiles a
boolean expression `F` into the diagonal phase operator `|x⟩ ↦ (−1)^F(x)|x⟩`
(this contract is also stated by `build_nqueens4_oracle`'s doc string,
circuit.py lines 168–179).  `oracle_phase x` is the amplitude factor the
compiled oracle applies to basis state `x`. -/
def oracle_phase (x : ℕ) : ℤ :=
  if BExpr.eval (fun i => decide (bit x i = 1)) nqueens4_boolean_expression then -1 else 1

end SatGrover

namespace SatGrover

end SatGrover

namespace SatGrover

set_option maxRecDepth 2000000 in
set_option maxHeartbeats 8000000 in
/-- Claim C2: for each of the 256 possible 8-bit assignments, the phase
oracle compiled from `_nqueens4_boolean_expression` multiplies the basis
state's amplitude by −1 iff the independent classical validator
`is_valid_assignment` accepts the assignment, and by +1 otherwise;
equivalently, the boolean formula evaluates to true exactly on the
assignments the validator accepts. -/
theorem oracle_matches_validator :
    ∀ x : Fin 256,
      (oracle_phase x = if is_valid_assignment x then -1 else 1)
      ∧ (BExpr.eval (fun i => decide (bit x i = 1)) nqueens4_boolean_expression
          = is_valid_assignment x) := by decide

end SatGrover

namespace SatGrover

/-! ### Grover iteration count (`optimal_grover_iterations`, circuit.py
lines 186–194)

The python function computes with floating-point `pi` and `sqrt`; we model it
over the reals.  Python's `round` rounds halves to even while Mathlib's
`round` rounds halves up; at the inputs of interest the value is not a
half-integer, so the two agree. -/

/-- `optimal_grover_iterations` (circuit.py lines 186–194):
`int(round((pi / 4) * sqrt(N / num_solutions)))` with `N = 2 ** num_qubits`. -/
noncomputable def optimal_grover_iterations (num_qubits num_solutions : ℕ) : ℤ :=
  round ((Real.pi / 4) * Real.sqrt ((2 : ℝ) ^ num_qubits / num_solutions))

/-- The failure python produces when `optimal_grover_iterations` is called
with `num_solutions = 0`: `N / num_solutions` raises `ZeroDivisionError`.
No error type named `IterationDomainError` exists anywhere in the
repository. -/
inductive PyError
  | zeroDivisionError
deriving DecidableEq

/-- A run of `optimal_grover_iterations` with python's division semantics
made explicit: integer division by zero raises `ZeroDivisionError`
(circuit.py line 193, `N / num_solutions`); otherwise the rounded iteration
count is returned. -/
noncomputable def optimal_grover_iterations_run (num_qubits num_solutions : ℕ) :
    Except PyError ℤ :=
  if num_solutions = 0 then .error .zeroDivisionError
  else .ok (optimal_grover_iterations num_qubits num_solutions)

/-- Claim C3: `optimal_grover_iterations` returns
`round((π/4)·√(2^numDataQubits / M))` for every `numDataQubits` and every
`M ≥ 1`; `generate_valid_patterns` finds exactly 2 valid 4-Queens
assignments by brute force; and with `numDataQubits = 8` and `M = 2` the
function returns 9. -/
theorem optimal_iterations_formula :
    (∀ n M : ℕ, 1 ≤ M →
      optimal_grover_iterations n M =
        round ((Real.pi / 4) * Real.sqrt ((2 : ℝ) ^ n / M)))
    ∧ generate_valid_patterns.length = 2
    ∧ optimal_grover_iterations 8 2 = 9 := by
  refine ⟨fun n M _ => rfl, by decide, ?_⟩
  unfold optimal_grover_iterations
  have h1 : ((2 : ℝ) ^ (8 : ℕ) / (2 : ℕ)) = 128 := by norm_num
  rw [h1]
  have hs : Real.sqrt 128 = 8 * Real.sqrt 2 := by
    rw [show (128 : ℝ) = 8 ^ 2 * 2 by norm_num,
        Real.sqrt_mul (by positivity : (0 : ℝ) ≤ 8 ^ 2),
        Real.sqrt_sq (by norm_num : (0 : ℝ) ≤ 8)]
  rw [hs]
  have hsq : Real.sqrt 2 ^ 2 = 2 := Real.sq_sqrt (by norm_num)
  have hnn : (0 : ℝ) ≤ Real.sqrt 2 := Real.sqrt_nonneg 2
  have hlb : (1.414 : ℝ) < Real.sqrt 2 := by nlinarith [hsq, hnn]
  have hub : Real.sqrt 2 < 1.415 := by nlinarith [hsq, hnn]
  have hp1 : (3.141592 : ℝ) < Real.pi := Real.pi_gt_d6
  have hp2 : Real.pi < 3.15 := Real.pi_lt_d2
  rw [round_eq, Int.floor_eq_iff]
  constructor
  · push_cast
    nlinarith [hp1, hp2, hlb, hub]
  · push_cast
    nlinarith [hp1, hp2, hlb, hub]

/-- Claim C3, witness at the concrete input `n = 8`, `M = 2`. -/
theorem optimal_iterations_formula_witness :
    optimal_grover_iterations 8 2 =
      round ((Real.pi / 4) * Real.sqrt ((2 : ℝ) ^ (8 : ℕ) / (2 : ℕ)))
    ∧ generate_valid_patterns.length = 2
    ∧ optimal_grover_iterations 8 2 = 9 :=
  ⟨optimal_iterations_formula.1 8 2 (by norm_num),
   optimal_iterations_formula.2.1, optimal_iterations_formula.2.2⟩

/-- Claim C4, behaviour at the failing input: calling the iteration-count
function with `num_solutions = 0` hits the unguarded zero division
(`N / num_solutions`), i.e. it fails with python's `ZeroDivisionError`
rather than a dedicated `IterationDomainError` (which the code never
defines). -/
theorem optimal_iterations_zero_solutions_division_fault :
    optimal_grover_iterations_run 8 0 = Except.error PyError.zeroDivisionError := rfl

end SatGrover

namespace SatGrover

/-! ### Circuit builder (`apply_diffuser` and `build_sat_grover_circuit`,
circuit.py lines 197–288) -/

/-- The operations appended to the circuit, with global qubit indices.
`oracle qs` stands for composing the `PhaseOracle` over the qubit list `qs`
(circuit.py line 281); `measureInto q c` measures qubit `q` into classical
bit `c`. -/
inductive Gate
  | h (q : ℕ)
  | x (q : ℕ)
  | mcx (controls : List ℕ) (target : ℕ)
  | oracle (qubits : List ℕ)
  | measureInto (q c : ℕ)
deriving DecidableEq

/-- `apply_diffuser` (circuit.py lines 197–225): H on every data qubit, X on
every data qubit, H–MCX–H on the last data qubit (controls = the others,
only when there is more than one qubit), X on every data qubit, H on every
data qubit. -/
def apply_diffuser (data_qubits : List ℕ) : List Gate :=
  let n := data_qubits.length
  let last := data_qubits.getD (n - 1) 0
  data_qubits.map Gate.h ++ data_qubits.map Gate.x
    ++ [Gate.h last]
    ++ (if 1 < n then [Gate.mcx (data_qubits.take (n - 1)) last] else [])
    ++ [Gate.h last]
    ++ data_qubits.map Gate.x ++ data_qubits.map Gate.h

/-- `build_sat_grover_circuit` (circuit.py lines 232–288) as the ordered list
of operations it appends, parameterized by the oracle's ancilla count
(chosen by qiskit's `PhaseOracle` compilation) and the iteration count:
the 8 data qubits are global indices 0–7 and the ancillas 8..8+num_ancillas−1;
H on each data qubit, then `num_iterations` repetitions of (oracle over
data+ancilla qubits, diffuser over the data qubits only), then measurement
of each data qubit `q` into classical bit `q`. -/
def build_sat_grover_circuit (num_ancillas num_iterations : ℕ) : List Gate :=
  let num_data : ℕ := 8
  let qr_data := List.range num_data
  let qr_anc := (List.range num_ancillas).map (fun a => num_data + a)
  let qubit_mapping := qr_data ++ qr_anc
  qr_data.map Gate.h
    ++ (List.range num_iterations).foldl
        (fun acc _ => acc ++ [Gate.oracle qubit_mapping] ++ apply_diffuser qr_data) []
    ++ qr_data.map (fun q => Gate.measureInto q q)

/-- Recognizer of the oracle operation. -/
def isOracleGate : Gate → Bool
  | .oracle _ => true
  | _ => false

/-- Recognizer of measurement operations. -/
def isMeasureGate : Gate → Bool
  | .measureInto _ _ => true
  | _ => false

/-- Qubits an operation touches. -/
def gateQubits : Gate → List ℕ
  | .h q => [q]
  | .x q => [q]
  | .mcx cs t => cs ++ [t]
  | .oracle qs => qs
  | .measureInto q _ => [q]

/-- A foldl that appends the same two blocks per loop iteration produces the
flattened `k`-fold replication of their concatenation. -/
theorem foldl_append_body (b1 b2 : List Gate) :
    ∀ k : ℕ, (List.range k).foldl (fun acc _ => acc ++ b1 ++ b2) [] =
      (List.replicate k (b1 ++ b2)).flatten := by
  intro k
  induction k with
  | zero => rfl
  | succ n ih =>
    rw [List.range_succ, List.foldl_append, ih, List.replicate_succ',
        List.flatten_append]
    simp

/-- Counting over a flattened replication multiplies the per-block count. -/
theorem countP_flatten_replicate (p : Gate → Bool) (l : List Gate) :
    ∀ k : ℕ, ((List.replicate k l).flatten).countP p = k * l.countP p := by
  intro k
  induction k with
  | zero => simp
  | succ n ih =>
    rw [List.replicate_succ, List.flatten_cons, List.countP_append, ih]
    ring

/-- Filtering a flattened replication of a block with no matches is empty. -/
theorem filter_flatten_replicate (p : Gate → Bool) (l : List Gate)
    (h : l.filter p = []) :
    ∀ k : ℕ, ((List.replicate k l).flatten).filter p = [] := by
  intro k
  induction k with
  | zero => rfl
  | succ n ih =>
    rw [List.replicate_succ, List.flatten_cons, List.filter_append, h, ih]
    rfl

/-- Claim C9: for every ancilla count and every iteration count `k`, the
built circuit is exactly: H layer on the 8 data qubits, then `k` repetitions
of the loop body (one oracle over data+ancilla qubits followed by the
diffuser over the 8 data qubits only), then the measurement layer; the
oracle occurs exactly `k` times; the measurement operations are exactly one
per data qubit `q ∈ 0..7` into classical bit `q` (so no oracle ancilla,
index ≥ 8, is ever measured); and every diffuser operation touches only
data qubits (indices < 8). -/
theorem grover_loop_structure :
    ∀ num_ancillas num_iterations : ℕ,
      (build_sat_grover_circuit num_ancillas num_iterations =
        (List.range 8).map Gate.h
          ++ (List.replicate num_iterations
                (Gate.oracle (List.range 8 ++ (List.range num_ancillas).map (fun a => 8 + a))
                  :: apply_diffuser (List.range 8))).flatten
          ++ (List.range 8).map (fun q => Gate.measureInto q q))
      ∧ ((build_sat_grover_circuit num_ancillas num_iterations).countP isOracleGate
          = num_iterations)
      ∧ ((build_sat_grover_circuit num_ancillas num_iterations).filter isMeasureGate
          = (List.range 8).map (fun q => Gate.measureInto q q))
      ∧ ((apply_diffuser (List.range 8)).all
          (fun g => (gateQubits g).all (fun q => decide (q < 8))) = true) := by
  intro na ni
  have hb : build_sat_grover_circuit na ni =
      (List.range 8).map Gate.h
        ++ (List.replicate ni
              (Gate.oracle (List.range 8 ++ (List.range na).map (fun a => 8 + a))
                :: apply_diffuser (List.range 8))).flatten
        ++ (List.range 8).map (fun q => Gate.measureInto q q) := by
    unfold build_sat_grover_circuit
    dsimp only
    rw [foldl_append_body]
    rfl
  refine ⟨hb, ?_, ?_, by decide⟩
  · rw [hb, List.countP_append, List.countP_append, countP_flatten_replicate]
    have h1 : ((List.range 8).map Gate.h).countP isOracleGate = 0 := by decide
    have h2 : ((List.range 8).map (fun q => Gate.measureInto q q)).countP isOracleGate = 0 := by
      decide
    have h3 : (Gate.oracle (List.range 8 ++ (List.range na).map (fun a => 8 + a))
        :: apply_diffuser (List.range 8)).countP isOracleGate = 1 := by
      rw [List.countP_cons]
      have h4 : (apply_diffuser (List.range 8)).countP isOracleGate = 0 := by decide
      simp [h4, isOracleGate]
    rw [h1, h2, h3]
    ring
  · rw [hb, List.filter_append, List.filter_append]
    have h1 : ((List.range 8).map Gate.h).filter isMeasureGate = [] := by decide
    have h2 : ((List.range 8).map (fun q => Gate.measureInto q q)).filter isMeasureGate
        = (List.range 8).map (fun q => Gate.measureInto q q) := by decide
    have h3 : ((List.replicate ni
        (Gate.oracle (List.range 8 ++ (List.range na).map (fun a => 8 + a))
          :: apply_diffuser (List.range 8))).flatten).filter isMeasureGate = [] := by
      apply filter_flatten_replicate
      have h4 : (apply_diffuser (List.range 8)).filter isMeasureGate = [] := by decide
      simp [List.filter_cons, h4, isMeasureGate]
    rw [h1, h2, h3]
    rfl

end SatGrover
